import Mathlib

set_option maxRecDepth 40000

/-!
Shallow embedding of the lumispy axis utilities
(src/lumispy/utils/axes.py): the refractive-index-corrected
wavelength/energy axis conversion with its intensity Jacobian, and the
overlap-joining algorithm for lists of spectra.

Real numbers are modelled as exact rationals; the floating-point value
NaN is modelled as the `none` value of `Option ℚ`.  The hyperspy
axis/signal capabilities that the code relies on (ordered samples,
nearest-index lookup, slice-by-signal-index on the data array, deep
copies) are modelled from the spec's capability interface (section 6):
value-to-index lookup is nearest-sample with ties to the lower index,
and index slicing follows Python slice semantics (negative indices wrap,
out-of-range bounds clamp).
-/

/-- Planck constant, `scipy.constants.h` (exact SI value), in J s. -/
def hplanck : ℚ := 6.62607015e-34

/-- Speed of light, `scipy.constants.c`, in m/s. -/
def clight : ℚ := 299792458

/-- Elementary charge, `scipy.constants.e` (exact SI value), in C. -/
def echarge : ℚ := 1.602176634e-19

/-- Refractive index of air (`_n_air` in the source): Peck & Reeder (1972)
dispersion formula, wavelength supplied in nm (divided by 1000 to µm
inside), analytically correct for 185-1700 nm. -/
def n_air (wl : ℚ) : ℚ :=
  let w := wl / 1000
  1 + 806051e-10 + 2480990e-8 / (132274e-3 - 1 / w ^ 2) +
    174557e-9 / (3932957e-5 - 1 / w ^ 2)

/-- `nm2eV`: converts wavelength (nm) to energy (eV) using the
wavelength-dependent permittivity of air. -/
def nm2eV (x : ℚ) : ℚ :=
  1e9 * hplanck * clight / (echarge * n_air x * x)

/-- `eV2nm`: converts energy (eV) to wavelength (nm); the permittivity is
evaluated at the approximate wavelength `1239.5/x`. -/
def eV2nm (x : ℚ) : ℚ :=
  let wl := 1239.5 / x
  1e9 * hplanck * clight / (echarge * n_air wl * x)

/-- Input axis for `axis2eV`: ordered samples tagged with a unit string. -/
structure WLAxis where
  axis : List ℚ
  units : String
deriving DecidableEq

/-- Error raised by `axis2eV` when the axis is already in energy units
(an `AttributeError` in the source; `UnitError` in the spec taxonomy). -/
inductive ConvErr where
  | unitErr
deriving DecidableEq

/-- `axis2eV`: converts a wavelength signal axis to eV.  Assumes nm unless
the units are exactly `µm`; returns the converted, order-reversed sample
list together with the intensity-correction factor. -/
def axis2eV (ax0 : WLAxis) : Except ConvErr (List ℚ × ℚ) :=
  if ax0.units = "eV" then .error .unitErr
  else if ax0.units = "µm" then
    .ok ((ax0.axis.map (fun v => nm2eV (1000 * v))).reverse, 1e3)
  else
    .ok ((ax0.axis.map nm2eV).reverse, 1e6)

/-- Three-list pointwise zip, used to express elementwise numpy
arithmetic over aligned 1-D arrays. -/
def zipWith3 {α β γ δ : Type} (f : α → β → γ → δ) : List α → List β → List γ → List δ
  | a :: as, b :: bs, c :: cs => f a b c :: zipWith3 f as bs cs
  | _, _, _ => []

/-- `data2eV`: Jacobian transformation of the intensity from counts/nm to
counts/eV; the refractive index is evaluated on the reversed wavelength
axis `ax0[::-1]` so that it aligns sample-wise with `evaxis`. -/
def data2eV (data : List ℚ) (factor : ℚ) (ax0 : List ℚ) (evaxis : List ℚ) : List ℚ :=
  zipWith3 (fun d w ev => d * factor * hplanck * clight / (echarge * n_air w * ev ^ 2))
    data ax0.reverse evaxis

/-- A float value that may be NaN: `none` is NaN. -/
abbrev RVal := Option ℚ

/-- NaN-propagating multiplication. -/
def rmul : RVal → RVal → RVal
  | some a, some b => some (a * b)
  | _, _ => none

/-- One cell of `np.divide(A, B, out=init, where=(B != 0))` with `init`
filled with NaN: positions with a zero divisor keep NaN, NaN operands
propagate. -/
def rdiv : RVal → RVal → RVal
  | some a, some b => if b = 0 then none else some (a / b)
  | _, _ => none

/-- `np.nanmean` along the signal axis: mean of the non-NaN entries,
NaN if there are none. -/
def nanmean (l : List RVal) : RVal :=
  let v := l.filterMap id
  if v.length = 0 then none else some (v.sum / (v.length : ℚ))

/-- One cell of `np.mean([X, Y], axis=0)`: NaN-propagating two-value mean. -/
def mean2 : RVal → RVal → RVal
  | some a, some b => some ((a + b) / 2)
  | _, _ => none

/-- Clamp a Python index (negative values wrap by the length) into `[0, n]`
for use as a slice endpoint. -/
def pyconv (n : ℕ) (i : ℤ) : ℕ :=
  (if i < 0 then (if i + (n : ℤ) < 0 then 0 else i + (n : ℤ))
   else (if (n : ℤ) < i then (n : ℤ) else i)).toNat

/-- Python slice `l[a : b]`. -/
def pyslice {α : Type} (a b : ℤ) (l : List α) : List α :=
  (l.take (pyconv l.length b)).drop (pyconv l.length a)

/-- Python slice `l[a :]`. -/
def pysliceFrom {α : Type} (a : ℤ) (l : List α) : List α :=
  pyslice a (l.length : ℤ) l

/-- Python single-element indexing `l[i]` on an axis vector (negative
indices count from the end); in-range everywhere it is used. -/
def pyget (l : List ℚ) (i : ℤ) : ℚ :=
  if i < 0 then l.getD (i + (l.length : ℤ)).toNat 0 else l.getD i.toNat 0

/-- Signal axis: hyperspy's `UniformDataAxis` (offset/scale/size) or an
explicit non-uniform `DataAxis` sample list.  (`FunctionalDataAxis` is
not modelled; the source materializes it to a non-uniform axis first.) -/
inductive SigAxis where
  | uniform (offset scale : ℚ) (size : ℕ)
  | nonuniform (ax : List ℚ)
deriving DecidableEq

/-- The explicit sample vector `axis.axis` of a signal axis. -/
def SigAxis.axisList : SigAxis → List ℚ
  | .uniform o s n => (List.range n).map (fun i => o + s * (Nat.cast i))
  | .nonuniform l => l

/-- Number of samples of an axis. -/
def SigAxis.len (a : SigAxis) : ℕ := a.axisList.length

/-- The `axis.is_uniform` predicate. -/
def SigAxis.is_uniform : SigAxis → Bool
  | .uniform _ _ _ => true
  | .nonuniform _ => false

/-- `axis.offset` (uniform axes). -/
def SigAxis.offset : SigAxis → ℚ
  | .uniform o _ _ => o
  | .nonuniform l => l.headD 0

/-- `axis.scale` (uniform axes). -/
def SigAxis.scale : SigAxis → ℚ
  | .uniform _ s _ => s
  | .nonuniform _ => 0

/-- Absolute value on ℚ, written out for fast kernel evaluation. -/
def qabs (q : ℚ) : ℚ := if q < 0 then -q else q

/-- One step of the running argmin scan: the state is
(best index so far, its distance, next index). -/
def argminStep (v : ℚ) (acc : ℕ × ℚ × ℕ) (y : ℚ) : ℕ × ℚ × ℕ :=
  match acc with
  | (bi, bd, i) =>
    match Rat.blt (qabs (y - v)) bd with
    | true => (i, qabs (y - v), i + 1)
    | false => (bi, bd, i + 1)

/-- Index of the sample nearest to `v` (first index on ties), i.e.
`np.abs(axis - v).argmin()`. -/
def argminAbs (v : ℚ) : List ℚ → ℕ
  | [] => 0
  | x :: xs => (xs.foldl (argminStep v) (0, qabs (x - v), 1)).1

/-- `axis.value2index(v)`: nearest-sample index lookup. -/
def SigAxis.value2index (a : SigAxis) (v : ℚ) : ℕ := argminAbs v a.axisList

/-- `arr.max()` of a nonempty numpy vector. -/
def arrMax : List ℚ → ℚ
  | [] => 0
  | x :: xs => xs.foldl (fun a y => if a < y then y else a) x

/-- `arr.min()` of a nonempty numpy vector. -/
def arrMin : List ℚ → ℚ
  | [] => 0
  | x :: xs => xs.foldl (fun a y => if y < a then y else a) x

/-- A spectrum: a signal axis paired with intensity data, one list of
signal samples per navigation pixel. -/
structure Spectrum where
  axis : SigAxis
  data : List (List RVal)
deriving DecidableEq

/-- `S.isig[a : b].data`: slice every navigation row by signal index. -/
def isig (S : Spectrum) (a b : ℤ) : List (List RVal) :=
  S.data.map (pyslice a b)

/-- Floor of a rational as an integer (`np.floor` on an exact value). -/
def ratFloor (q : ℚ) : ℤ := Int.fdiv q.num (q.den : ℤ)

/-- Interpolation methods of `scipy.interpolate.interp1d` modelled here:
`slinear` (order-1 spline = piecewise linear) and `nearest`. -/
inductive InterpKind where
  | slinear
  | nearest
deriving DecidableEq

/-- Linear interpolation between two knots, NaN-propagating. -/
def lerp (x1 : ℚ) (y1 : RVal) (x2 : ℚ) (y2 : RVal) (t : ℚ) : RVal :=
  match y1, y2 with
  | some a, some b => some (a + (b - a) * (t - x1) / (x2 - x1))
  | _, _ => none

/-- Nearest-knot interpolation between two knots (ties round down,
as scipy's `nearest`). -/
def nearestPick (x1 : ℚ) (y1 : RVal) (x2 : ℚ) (y2 : RVal) (t : ℚ) : RVal :=
  if t - x1 ≤ x2 - t then y1 else y2

/-- Evaluate an interpolant given by knot/value pairs at one target.
`none` is scipy's out-of-bounds `ValueError` (`bounds_error=True`). -/
def interpSeg (kind : InterpKind) : List (ℚ × RVal) → ℚ → Option RVal
  | [], _ => none
  | [_], _ => none
  | (x1, y1) :: (x2, y2) :: rest, t =>
    if t < x1 then none
    else if t ≤ x2 then
      some (match kind with
        | .slinear => lerp x1 y1 x2 y2 t
        | .nearest => nearestPick x1 y1 x2 y2 t)
    else interpSeg kind ((x2, y2) :: rest) t

/-- Sequence a fallible map over a list. -/
def seqMap {α β : Type} (f : α → Option β) : List α → Option (List β)
  | [] => some []
  | x :: xs =>
    match f x, seqMap f xs with
    | some y, some ys => some (y :: ys)
    | _, _ => none

/-- `scipy.interpolate.interp1d(xs, rows)(ts)` applied per navigation row:
fails (like scipy's `ValueError`s) with fewer than two knots, on a
knot/value shape mismatch, or on an out-of-bounds target. -/
def interpRows (kind : InterpKind) (xs : List ℚ) (rows : List (List RVal))
    (ts : List ℚ) : Option (List (List RVal)) :=
  if xs.length < 2 then none
  else if rows.any (fun r => r.length != xs.length) then none
  else seqMap (fun r => seqMap (interpSeg kind (xs.zip r)) ts) rows

/-- `np.mean([X, Y], axis=0)` over per-row arrays: requires identical
shapes (numpy rejects ragged stacking), NaN-propagating per cell. -/
def mean2Rows (A B : List (List RVal)) : Option (List (List RVal)) :=
  if A.length = B.length ∧ ∀ p ∈ A.zip B, p.1.length = p.2.length then
    some ((A.zip B).map (fun p => List.zipWith mean2 p.1 p.2))
  else none

/-- `np.hstack` of two blocks of per-row data. -/
def hstack2 (A B : List (List RVal)) : List (List RVal) :=
  List.zipWith (fun a b => a ++ b) A B

/-- `np.hstack` of three blocks of per-row data. -/
def hstack3 (A B C : List (List RVal)) : List (List RVal) :=
  hstack2 (hstack2 A B) C

/-- Errors of `join_spectra`: non-overlapping axes, `r` too large, and
any other `ValueError`-style failure of the numeric libraries. -/
inductive JoinErr where
  | overlapErr
  | rangeErr
  | valueErr
deriving DecidableEq

instance {ε α : Type} [DecidableEq ε] [DecidableEq α] : DecidableEq (Except ε α) := fun x y =>
  match x, y with
  | .error a, .error b =>
    if h : a = b then .isTrue (by rw [h]) else .isFalse (fun hh => h (by injection hh))
  | .ok a, .ok b =>
    if h : a = b then .isTrue (by rw [h]) else .isFalse (fun hh => h (by injection hh))
  | .error _, .ok _ => .isFalse (fun hh => by injection hh)
  | .ok _, .error _ => .isFalse (fun hh => by injection hh)

/-- `omax`: maximum of the accumulator's signal axis. -/
def oMax (S1 : Spectrum) : ℚ := arrMax S1.axis.axisList

/-- `omin`: minimum of the incoming spectrum's signal axis. -/
def oMin (S2 : Spectrum) : ℚ := arrMin S2.axis.axisList

/-- `ocenter`: center of the overlap range. -/
def oCenter (S1 S2 : Spectrum) : ℚ := (oMax S1 + oMin S2) / 2

/-- `ind1`: index in the accumulator's axis closest to the overlap center. -/
def ind1 (S1 S2 : Spectrum) : ℕ := S1.axis.value2index (oCenter S1 S2)

/-- `ind2`: index in the incoming spectrum's axis closest to the overlap
center, incremented by one when `axis.axis[ind1] > axis2.axis[ind2]`. -/
def ind2 (S1 S2 : Spectrum) : ℕ :=
  let i2 := S2.axis.value2index (oCenter S1 S2)
  if pyget S2.axis.axisList (i2 : ℤ) < pyget S1.axis.axisList (ind1 S1 S2 : ℤ) then i2 + 1
  else i2

/-- The guard `axis.value2index(omax) - ind1 <= r` of the "`r` is too
large" error. -/
def rTooLarge (S1 S2 : Spectrum) (r : ℤ) : Bool :=
  decide ((S1.axis.value2index (oMax S1) : ℤ) - (ind1 S1 S2 : ℤ) ≤ r)

/-- The window `S1.isig[ind1-r : ind1+r].data`. -/
def winA (S1 S2 : Spectrum) (r : ℤ) : List (List RVal) :=
  isig S1 ((ind1 S1 S2 : ℤ) - r) ((ind1 S1 S2 : ℤ) + r)

/-- The window `S2.isig[ind2-r : ind2+r].data`. -/
def winB (S1 S2 : Spectrum) (r : ℤ) : List (List RVal) :=
  isig S2 ((ind2 S1 S2 : ℤ) - r) ((ind2 S1 S2 : ℤ) + r)

/-- `np.divide(ra, rb, out=init, where=(rb != 0))` on one navigation row;
the output takes `rb`'s shape, `ra` must match it or broadcast from a
single sample. -/
def divideTo (ra rb : List RVal) : Option (List RVal) :=
  if ra.length = rb.length then some (List.zipWith rdiv ra rb)
  else
    match ra with
    | [a] => some (rb.map (fun b => rdiv a b))
    | _ => none

/-- The per-navigation-pixel scaling factor
`np.nanmean(np.divide(winA, winB, out=init, where=(winB != 0)), axis=-1)`. -/
def scaleFactor (S1 S2 : Spectrum) (r : ℤ) : Option (List RVal) :=
  if (winA S1 S2 r).length = (winB S1 S2 r).length then
    seqMap (fun p => (divideTo p.1 p.2).map nanmean) ((winA S1 S2 r).zip (winB S1 S2 r))
  else none

/-- `(S2.data.T * factor).T`: multiply each navigation row by its factor. -/
def scaleData (factor : List RVal) (data : List (List RVal)) : List (List RVal) :=
  List.zipWith (fun f row => row.map (rmul f)) factor data

/-- The recomputed uniform-axis size
`axis.axis[:ind1].size + np.floor((axis2.axis[-1] - axis.axis[ind1]) / axis.scale)`. -/
def newSizeU (S1 S2 : Spectrum) : ℕ :=
  (((pyslice 0 (ind1 S1 S2 : ℤ) S1.axis.axisList).length : ℤ) +
    ratFloor ((pyget S2.axis.axisList (-1) - pyget S1.axis.axisList (ind1 S1 S2 : ℤ)) /
      S1.axis.scale)).toNat

/-- One fold step of `join_spectra` after the "`r` too large" check:
scale the incoming spectrum, then merge axes and data.  The branch on
`axis.is_uniform` reproduces the source's version probe
`not 'axis' in getfullargspec(DataAxis)[0] or axis.is_uniform` for a
hyperspy whose `DataAxis` accepts explicit sample lists.  Note that both
`interp1d` constructions pass the literal `kind='slinear'`, not the
`kind` parameter. -/
def mergeStep (r : ℤ) (avg : Bool) (kind : InterpKind) (S1 S2 : Spectrum) : Option Spectrum :=
  (scaleFactor S1 S2 r).bind (fun factor =>
    let i1 : ℤ := (ind1 S1 S2 : ℤ)
    let i2 : ℤ := (ind2 S1 S2 : ℤ)
    let S2d := scaleData factor S2.data
    if S1.axis.is_uniform then
      let newAxis := SigAxis.uniform S1.axis.offset S1.axis.scale (newSizeU S1 S2)
      let tL := newAxis.axisList
      if avg then
        let i2r : ℤ := (S2.axis.value2index (pyget tL (i1 - r)) : ℤ)
        let knots := pysliceFrom i2r S2.axis.axisList
        let ys := S2d.map (fun row => pysliceFrom i2r row)
        (interpRows InterpKind.slinear knots ys (pyslice (i1 - r + 1) (i1 + r) tL)).bind
          (fun mids =>
            (interpRows InterpKind.slinear knots ys (pysliceFrom (i1 + r) tL)).bind
              (fun tail =>
                (mean2Rows (isig S1 (i1 - r + 1) (i1 + r)) mids).map (fun mid =>
                  ⟨newAxis, hstack3 (isig S1 0 (i1 - r + 1)) mid tail⟩)))
      else
        (interpRows InterpKind.slinear (pysliceFrom i2 S2.axis.axisList)
            (S2d.map (fun row => pysliceFrom i2 row)) (pysliceFrom (i1 + 1) tL)).map
          (fun tail => ⟨newAxis, hstack2 (isig S1 0 (i1 + 1)) tail⟩)
    else
      let newAxis := SigAxis.nonuniform
        (pyslice 0 i1 S1.axis.axisList ++ pysliceFrom i2 S2.axis.axisList)
      if avg then
        (mean2Rows (isig S1 (i1 - r) (i1 + r))
            (S2d.map (fun row => pyslice (i2 - r) (i2 + r) row))).map (fun mid =>
          ⟨newAxis, hstack3 (isig S1 0 (i1 - r)) mid
            (S2d.map (fun row => pysliceFrom (i2 + r) row))⟩)
      else
        some ⟨newAxis, hstack2 (isig S1 0 i1) (S2d.map (fun row => pysliceFrom i2 row))⟩)

/-- One fold step of `join_spectra`, with its error taxonomy: the
"`r` is too large" `ValueError` is checked first, every later numeric
failure surfaces as a generic `valueErr`. -/
def joinStep (r : ℤ) (avg : Bool) (kind : InterpKind) (S1 S2 : Spectrum) :
    Except JoinErr Spectrum :=
  if rTooLarge S1 S2 r then .error .rangeErr
  else
    match mergeStep r avg kind S1 S2 with
    | none => .error .valueErr
    | some T => .ok T

/-- The preliminary overlap test: some consecutive pair has
`S[i-1].axis.max() < S[i].axis.min()`. -/
def nonOverlapping (S : List Spectrum) : Bool :=
  (S.zip S.tail).any (fun p => decide (oMax p.1 < oMin p.2))

/-- `join_spectra(S, r, average, kind)`: check every adjacent pair for
overlap, then left-fold the merge step over the list, starting from a
copy of the first spectrum.  (The source's defaults are `r=50`,
`average=False`, `kind='slinear'`.) -/
def join_spectra (S : List Spectrum) (r : ℤ) (avg : Bool) (kind : InterpKind) :
    Except JoinErr Spectrum :=
  if nonOverlapping S then .error .overlapErr
  else
    match S with
    | [] => .error .valueErr
    | s0 :: rest => rest.foldlM (joinStep r avg kind) s0

/-- Well-formedness of a spectrum: every navigation row's length equals
the signal-axis length (`data.shape[-1] == axis.length`). -/
def shapeOk (T : Spectrum) : Bool :=
  T.data.all (fun row => row.length == T.axis.len)

/-- Scaling factor as the spec words it: the elementwise ratio of the
A-window to the B-window, every position where the B-window sample is
exactly zero treated as NaN, reduced with a NaN-ignoring mean along the
signal axis, one scalar per navigation pixel. -/
def specScalingFactor (wA wB : List (List RVal)) : List RVal :=
  List.zipWith (fun ra rb =>
    nanmean (List.zipWith (fun a b =>
      if b = some 0 then none
      else
        match a, b with
        | some p, some q => some (p / q)
        | _, _ => none) ra rb)) wA wB

/-- Spectrum A of the spec's concrete joining scenario: uniform axis
500..600 nm step 1 (101 samples), constant data 10.0. -/
def scnA : Spectrum := ⟨.uniform 500 1 101, [List.replicate 101 (some 10)]⟩

/-- Spectrum B of the spec's concrete joining scenario: uniform axis
580..700 nm step 1 (121 samples), constant data 20.0. -/
def scnB : Spectrum := ⟨.uniform 580 1 121, [List.replicate 121 (some 20)]⟩

/-- Spectrum A of the non-uniform joining scenario. -/
def nuA : Spectrum := ⟨.nonuniform [1, 1.5, 2.2, 3, 3.8, 4.5], [List.replicate 6 (some 1)]⟩

/-- Spectrum B of the non-uniform joining scenario. -/
def nuB : Spectrum := ⟨.nonuniform [3.5, 4, 4.5, 5, 5.6], [List.replicate 5 (some 1)]⟩

/-- Accumulator spectrum of the shape-invariant counterexample. -/
def ceA : Spectrum := ⟨.uniform 0 1 11, [List.replicate 11 (some 1)]⟩

/-- Incoming spectrum of the shape-invariant counterexample: its last
sample lies less than one accumulator step beyond the overlap center. -/
def ceB : Spectrum := ⟨.nonuniform [4, 6.9, 7.3, 7.4], [List.replicate 4 (some 1)]⟩

/-- Accumulator spectrum of the interpolation-kind scenario. -/
def kA : Spectrum := ⟨.uniform 0 1 7, [List.replicate 7 (some 2)]⟩

/-- Incoming spectrum of the interpolation-kind scenario: its data is not
piecewise linear on the target grid, so `slinear` and `nearest`
interpolation differ. -/
def kB : Spectrum := ⟨.nonuniform [2, 3, 4.2, 6.3], [[some 4, some 4, some 4, some 8]]⟩

/-! Helper lemmas about the fold step's error taxonomy. -/

theorem joinStep_ne_overlapErr (r : ℤ) (avg : Bool) (kind : InterpKind) (S1 S2 : Spectrum) :
    joinStep r avg kind S1 S2 ≠ Except.error JoinErr.overlapErr := by
  unfold joinStep
  by_cases h : rTooLarge S1 S2 r = true
  · simp [h]
  · simp only [Bool.not_eq_true] at h
    simp only [h, Bool.false_eq_true, if_false]
    cases hm : mergeStep r avg kind S1 S2 <;> simp

theorem foldlM_joinStep_ne_overlapErr (l : List Spectrum) (s : Spectrum) (r : ℤ)
    (avg : Bool) (kind : InterpKind) :
    List.foldlM (joinStep r avg kind) s l ≠ Except.error JoinErr.overlapErr := by
  induction l generalizing s with
  | nil => intro h; simp [List.foldlM, pure, Except.pure] at h
  | cons x xs ih =>
    intro h
    rw [List.foldlM_cons] at h
    cases hs : joinStep r avg kind s x with
    | error e =>
      rw [hs] at h
      cases e <;> simp [Bind.bind, Except.bind] at h
      exact joinStep_ne_overlapErr r avg kind s x (by rw [hs])
    | ok s1 =>
      rw [hs] at h
      simp only [Bind.bind, Except.bind] at h
      exact ih s1 h

/-- Claim C2: `join_spectra` raises the overlap error exactly when some
consecutive pair of input spectra has the maximum of the earlier signal
axis strictly below the minimum of the later one; the check runs over
all adjacent pairs before any merging, pairs that merely touch pass, and
in this pure embedding an error returns no (partial) spectrum at all. -/
theorem claim2_overlap_iff (S : List Spectrum) (r : ℤ) (avg : Bool) (kind : InterpKind) :
    join_spectra S r avg kind = Except.error JoinErr.overlapErr ↔
      ∃ p ∈ S.zip S.tail, oMax p.1 < oMin p.2 := by
  unfold join_spectra
  by_cases h : nonOverlapping S = true
  · simp only [h, if_true]
    constructor
    · intro _
      unfold nonOverlapping at h
      simpa [List.any_eq_true] using h
    · intro _; trivial
  · simp only [Bool.not_eq_true] at h
    simp only [h, Bool.false_eq_true, if_false]
    constructor
    · intro hh
      cases S with
      | nil => simp at hh
      | cons s0 rest => exact absurd hh (foldlM_joinStep_ne_overlapErr rest s0 r avg kind)
    · rintro ⟨p, hp, hlt⟩
      exfalso
      unfold nonOverlapping at h
      rw [List.any_eq_false] at h
      exact absurd (by simpa using hlt) (by simpa using h p hp)

/-- Claim C3: a fold step of `join_spectra` raises the "`r` is too
large" error exactly when the index of the accumulator-axis maximum
minus the overlap-center index `ind1` is not strictly greater than `r`;
otherwise the step never produces this error. -/
theorem claim3_range_iff (r : ℤ) (avg : Bool) (kind : InterpKind) (S1 S2 : Spectrum) :
    joinStep r avg kind S1 S2 = Except.error JoinErr.rangeErr ↔
      (S1.axis.value2index (oMax S1) : ℤ) - (ind1 S1 S2 : ℤ) ≤ r := by
  unfold joinStep
  by_cases h : rTooLarge S1 S2 r = true
  · simp only [h, if_true, true_iff]
    unfold rTooLarge at h
    exact of_decide_eq_true h
  · simp only [Bool.not_eq_true] at h
    have hni : ¬ ((S1.axis.value2index (oMax S1) : ℤ) - (ind1 S1 S2 : ℤ) ≤ r) := by
      intro hi
      rw [show rTooLarge S1 S2 r = true from by unfold rTooLarge; exact decide_eq_true hi] at h
      cases h
    simp only [h, Bool.false_eq_true, if_false, hni, iff_false]
    cases hm : mergeStep r avg kind S1 S2 <;> simp

/-! Staged evaluations of the spec's concrete joining scenario
(A: 500..600 nm, data 10.0; B: 580..700 nm, data 20.0). -/

unseal Rat.mul Rat.add Rat.inv Rat.sub Rat.ofScientific in
theorem oCenter_scn : oCenter scnA scnB = 590 := by decide

unseal Rat.mul Rat.add Rat.inv Rat.sub Rat.ofScientific in
theorem v2iMax_scn : scnA.axis.value2index (oMax scnA) = 100 := by
  rw [show oMax scnA = 600 from by decide]
  decide

unseal Rat.mul Rat.add Rat.inv Rat.sub Rat.ofScientific in
theorem ind1_scn : ind1 scnA scnB = 90 := by
  unfold ind1
  rw [oCenter_scn]
  decide

unseal Rat.mul Rat.add Rat.inv Rat.sub Rat.ofScientific in
theorem ind2_scn : ind2 scnA scnB = 10 := by
  unfold ind2
  rw [oCenter_scn, ind1_scn]
  decide

theorem rTooLarge_scn_10 : rTooLarge scnA scnB 10 = true := by
  unfold rTooLarge
  rw [v2iMax_scn, ind1_scn]
  decide

theorem rTooLarge_scn_9 : rTooLarge scnA scnB 9 = false := by
  unfold rTooLarge
  rw [v2iMax_scn, ind1_scn]
  decide

unseal Rat.mul Rat.add Rat.inv Rat.sub Rat.ofScientific in
/-- Claim C1, counterexample: on the spec's concrete scenario the call
with `r = 10` raises the "`r` is too large" error instead of computing a
scaling factor, since `value2index(max) - ind1 = 100 - 90 = 10 ≤ r`. -/
theorem claim1_counterexample :
    join_spectra [scnA, scnB] 10 false InterpKind.slinear = Except.error JoinErr.rangeErr := by
  unfold join_spectra
  rw [show nonOverlapping [scnA, scnB] = false from by decide]
  simp only [Bool.false_eq_true, if_false, List.foldlM_cons, List.foldlM_nil]
  unfold joinStep
  rw [rTooLarge_scn_10]
  simp [Bind.bind, Except.bind]

/-! Lemmas for the scaling-factor refinement. -/

theorem rdiv_spec (a b : RVal) :
    rdiv a b = (if b = some 0 then none
      else match a, b with
        | some p, some q => some (p / q)
        | _, _ => none) := by
  match a, b with
  | some p, some q =>
    by_cases hq : q = 0
    · subst hq; simp [rdiv]
    · simp [rdiv, hq]
  | some p, none => simp [rdiv]
  | none, some q =>
    by_cases hq : q = 0
    · subst hq; simp [rdiv]
    · simp [rdiv, hq]
  | none, none => simp [rdiv]

theorem rdiv_eq_specFun :
    rdiv = (fun a b => if b = some 0 then none
      else match a, b with
        | some p, some q => some (p / q)
        | _, _ => none) :=
  funext fun a => funext fun b => rdiv_spec a b

theorem seqMap_zip_map {α β γ : Type} (g : α → β → γ) (h : α × β → Option γ) :
    ∀ (l₁ : List α) (l₂ : List β),
      (∀ p ∈ l₁.zip l₂, h p = some (g p.1 p.2)) →
      seqMap h (l₁.zip l₂) = some (List.zipWith g l₁ l₂) := by
  intro l₁
  induction l₁ with
  | nil => intro l₂ _; simp [seqMap]
  | cons x xs ih =>
    intro l₂ hc
    cases l₂ with
    | nil => simp [seqMap]
    | cons y ys =>
      have hx := hc (x, y) (by simp)
      have hrest := ih ys (fun p hp => hc p (by simp [hp]))
      show (match h (x, y), seqMap h (xs.zip ys) with
        | some z, some zs => some (z :: zs)
        | _, _ => none) = _
      rw [hx, hrest]
      rfl

theorem scaleFactor_spec (S1 S2 : Spectrum) (r : ℤ) (f : List RVal)
    (hsf : scaleFactor S1 S2 r = some f)
    (hlen : ∀ p ∈ (winA S1 S2 r).zip (winB S1 S2 r), p.1.length = p.2.length) :
    f = specScalingFactor (winA S1 S2 r) (winB S1 S2 r) := by
  unfold scaleFactor at hsf
  by_cases hrows : (winA S1 S2 r).length = (winB S1 S2 r).length
  · rw [if_pos hrows] at hsf
    have hsm := seqMap_zip_map
      (fun ra rb => nanmean (List.zipWith (fun a b =>
        if b = some 0 then none
        else
          match a, b with
          | some p, some q => some (p / q)
          | _, _ => none) ra rb))
      (fun p => (divideTo p.1 p.2).map nanmean)
      (winA S1 S2 r) (winB S1 S2 r)
      (by
        intro p hp
        have hl := hlen p hp
        dsimp only
        unfold divideTo
        rw [if_pos hl, Option.map_some', rdiv_eq_specFun])
    rw [hsf] at hsm
    exact Option.some.inj hsm
  · rw [if_neg hrows] at hsf
    cases hsf

unseal Rat.mul Rat.add Rat.inv Rat.sub Rat.ofScientific in
theorem winA_scn : winA scnA scnB 9 = [List.replicate 18 (some 10)] := by
  unfold winA; rw [ind1_scn]; decide
unseal Rat.mul Rat.add Rat.inv Rat.sub Rat.ofScientific in
theorem winB_scn : winB scnA scnB 9 = [List.replicate 18 (some 20)] := by
  unfold winB; rw [ind2_scn]; decide
unseal Rat.mul Rat.add Rat.inv Rat.sub Rat.ofScientific in
theorem scaleFactor_scn : scaleFactor scnA scnB 9 = some [some (1/2)] := by
  unfold scaleFactor; rw [winA_scn, winB_scn]; decide
unseal Rat.mul Rat.add Rat.inv Rat.sub Rat.ofScientific in
theorem newSizeU_scn : newSizeU scnA scnB = 200 := by
  unfold newSizeU; rw [ind1_scn]; decide
unseal Rat.mul Rat.add Rat.inv Rat.sub Rat.ofScientific in
theorem interp_scn : interpRows InterpKind.slinear
    (pysliceFrom ((10 : ℕ) : ℤ) scnB.axis.axisList)
    ((scaleData [some (1/2)] scnB.data).map (fun row => pysliceFrom ((10 : ℕ) : ℤ) row))
    (pysliceFrom (((90 : ℕ) : ℤ) + 1) (SigAxis.uniform scnA.axis.offset scnA.axis.scale 200).axisList) =
    some [List.replicate 109 (some 10)] := by decide

unseal Rat.mul Rat.add Rat.inv Rat.sub Rat.ofScientific in
theorem isig_scn : isig scnA 0 (((90 : ℕ) : ℤ) + 1) = [List.replicate 91 (some 10)] := by decide

theorem mergeStep_scn_shape : mergeStep 9 false InterpKind.slinear scnA scnB =
    (interpRows InterpKind.slinear
        (pysliceFrom ((ind2 scnA scnB : ℕ) : ℤ) scnB.axis.axisList)
        ((scaleData [some (1/2)] scnB.data).map
          (fun row => pysliceFrom ((ind2 scnA scnB : ℕ) : ℤ) row))
        (pysliceFrom (((ind1 scnA scnB : ℕ) : ℤ) + 1)
          (SigAxis.uniform scnA.axis.offset scnA.axis.scale (newSizeU scnA scnB)).axisList)).map
      (fun tail =>
        ⟨SigAxis.uniform scnA.axis.offset scnA.axis.scale (newSizeU scnA scnB),
          hstack2 (isig scnA 0 (((ind1 scnA scnB : ℕ) : ℤ) + 1)) tail⟩) := by
  unfold mergeStep
  rw [scaleFactor_scn]
  rfl

unseal Rat.mul Rat.add Rat.inv Rat.sub Rat.ofScientific in
theorem mergeStep_scn : mergeStep 9 false InterpKind.slinear scnA scnB =
    some ⟨SigAxis.uniform 500 1 200, [List.replicate 200 (some 10)]⟩ := by
  rw [mergeStep_scn_shape, ind1_scn, ind2_scn, newSizeU_scn, interp_scn, Option.map_some']
  rw [isig_scn]
  decide

theorem joinStep_scn : joinStep 9 false InterpKind.slinear scnA scnB =
    Except.ok ⟨SigAxis.uniform 500 1 200, [List.replicate 200 (some 10)]⟩ := by
  unfold joinStep
  rw [rTooLarge_scn_9, mergeStep_scn]
  rfl

unseal Rat.mul Rat.add Rat.inv Rat.sub Rat.ofScientific in
theorem join_scn9 : join_spectra [scnA, scnB] 9 false InterpKind.slinear =
    Except.ok ⟨SigAxis.uniform 500 1 200, [List.replicate 200 (some 10)]⟩ := by
  unfold join_spectra
  rw [show nonOverlapping [scnA, scnB] = false from by decide]
  rw [if_neg Bool.false_ne_true]
  show List.foldlM (joinStep 9 false InterpKind.slinear) scnA [scnB] = _
  rw [List.foldlM_cons, joinStep_scn]
  rfl

/-- Claim C1 (amended): at a fold step of `join_spectra` the computed
scaling factor is exactly the spec's NaN-ignoring mean of the
elementwise ratio of the accumulator window to the incoming window
(zero divisors treated as NaN), one multiplier per navigation pixel,
and all of the incoming data is multiplied by it.  On the spec's
concrete scenario the largest admissible half-window is `r = 9` (the
stated `r = 10` raises the range error, see the counterexample): with
`r = 9` the factor is `0.5` and the merged spectrum is constant `10.0`
on the 200-sample uniform grid `[500, 699]` nm. -/
theorem claim1_scaling :
    (∀ (S1 S2 : Spectrum) (r : ℤ) (f : List RVal),
        scaleFactor S1 S2 r = some f →
        (∀ p ∈ (winA S1 S2 r).zip (winB S1 S2 r), p.1.length = p.2.length) →
        f = specScalingFactor (winA S1 S2 r) (winB S1 S2 r)) ∧
    scaleFactor scnA scnB 9 = some [some (1 / 2)] ∧
    join_spectra [scnA, scnB] 9 false InterpKind.slinear =
      Except.ok ⟨SigAxis.uniform 500 1 200, [List.replicate 200 (some 10)]⟩ :=
  ⟨scaleFactor_spec, scaleFactor_scn, join_scn9⟩

/-- Witness for claim C1: the refinement instantiated on the concrete
scenario's windows. -/
theorem claim1_witness :
    [some ((1 : ℚ) / 2)] = specScalingFactor (winA scnA scnB 9) (winB scnA scnB 9) :=
  claim1_scaling.1 scnA scnB 9 [some (1 / 2)] scaleFactor_scn
    (by rw [winA_scn, winB_scn]; decide)

unseal Rat.mul Rat.add Rat.inv Rat.sub Rat.ofScientific in
/-- Claim C4: the `kind` argument of `join_spectra` is ignored — both
`interp1d` constructions hard-code `kind='slinear'`, contradicting the
docstring.  The interpolation methods genuinely differ on the very
interpolation the step performs (at target 5, `nearest` gives 2 and
`slinear` gives 58/21), yet requesting `nearest` returns the `slinear`
value 58/21. -/
theorem claim4_kind_ignored :
    (∀ (S : List Spectrum) (r : ℤ) (avg : Bool) (k k' : InterpKind),
        join_spectra S r avg k = join_spectra S r avg k') ∧
    interpRows InterpKind.nearest [4.2, 6.3] [[some 2, some 4]] [5] ≠
      interpRows InterpKind.slinear [4.2, 6.3] [[some 2, some 4]] [5] ∧
    join_spectra [kA, kB] 1 false InterpKind.nearest =
      Except.ok ⟨SigAxis.uniform 0 1 6,
        [[some 2, some 2, some 2, some 2, some 2, some (58 / 21)]]⟩ :=
  ⟨fun _ _ _ _ _ => rfl, by decide, by decide⟩

unseal Rat.mul Rat.add Rat.inv Rat.sub Rat.ofScientific in
/-- Claim C5: when the accumulator's axis is non-uniform, a successful
fold step performs no interpolation and returns as merged axis the
literal concatenation of the accumulator axis up to `ind1` with the
incoming axis from `ind2`, of the corresponding total length; on the
spec's concrete non-uniform scenario the result axis is exactly that
concatenation. -/
theorem claim5_nonuniform :
    (∀ (r : ℤ) (avg : Bool) (kind : InterpKind) (S1 S2 : Spectrum) (l : List ℚ) (T : Spectrum),
        S1.axis = SigAxis.nonuniform l →
        joinStep r avg kind S1 S2 = Except.ok T →
        T.axis = SigAxis.nonuniform
          (pyslice 0 ((ind1 S1 S2 : ℕ) : ℤ) l ++
            pysliceFrom ((ind2 S1 S2 : ℕ) : ℤ) S2.axis.axisList) ∧
        T.axis.len = (pyslice 0 ((ind1 S1 S2 : ℕ) : ℤ) l).length +
          (pysliceFrom ((ind2 S1 S2 : ℕ) : ℤ) S2.axis.axisList).length) ∧
    join_spectra [nuA, nuB] 0 false InterpKind.slinear =
      Except.ok ⟨SigAxis.nonuniform [1, 1.5, 2.2, 3, 4, 4.5, 5, 5.6],
        [[some 1, some 1, some 1, some 1, none, none, none, none]]⟩ := by
  constructor
  · intro r avg kind S1 S2 l T hax hok
    unfold joinStep at hok
    by_cases hr : rTooLarge S1 S2 r = true
    · rw [hr] at hok
      simp at hok
    · rw [Bool.not_eq_true] at hr
      rw [hr] at hok
      simp only [Bool.false_eq_true, if_false] at hok
      cases hm : mergeStep r avg kind S1 S2 with
      | none => rw [hm] at hok; cases hok
      | some T' =>
        rw [hm] at hok
        have hT : T' = T := by injection hok
        subst hT
        unfold mergeStep at hm
        rw [Option.bind_eq_some] at hm
        obtain ⟨fac, _, hm⟩ := hm
        rw [hax] at hm
        simp only [SigAxis.is_uniform, Bool.false_eq_true, if_false] at hm
        cases avg with
        | false =>
          simp only [Bool.false_eq_true, if_false] at hm
          injection hm with hm
          rw [← hm]
          refine ⟨by simp [SigAxis.axisList], ?_⟩
          simp [SigAxis.len, SigAxis.axisList, List.length_append]
        | true =>
          simp only [eq_self_iff_true, if_true] at hm
          rw [Option.map_eq_some'] at hm
          obtain ⟨mid, _, hm⟩ := hm
          rw [← hm]
          refine ⟨by simp [SigAxis.axisList], ?_⟩
          simp [SigAxis.len, SigAxis.axisList, List.length_append]
  · decide

unseal Rat.mul Rat.add Rat.inv Rat.sub Rat.ofScientific in
/-- Witness for claim C5: the general concatenation law instantiated on
the concrete non-uniform scenario. -/
theorem claim5_witness :
    (SigAxis.nonuniform [1, 1.5, 2.2, 3, 4, 4.5, 5, 5.6] : SigAxis) =
      SigAxis.nonuniform
        (pyslice 0 ((ind1 nuA nuB : ℕ) : ℤ) [1, 1.5, 2.2, 3, 3.8, 4.5] ++
          pysliceFrom ((ind2 nuA nuB : ℕ) : ℤ) nuB.axis.axisList) :=
  (claim5_nonuniform.1 0 false InterpKind.slinear nuA nuB [1, 1.5, 2.2, 3, 3.8, 4.5]
    ⟨SigAxis.nonuniform [1, 1.5, 2.2, 3, 4, 4.5, 5, 5.6],
      [[some 1, some 1, some 1, some 1, none, none, none, none]]⟩
    rfl (by decide)).1

unseal Rat.mul Rat.add Rat.inv Rat.sub Rat.ofScientific in
/-- Claim C6, counterexample: a successful call of `join_spectra` whose
result violates `data.shape[-1] == axis.length` — the incoming axis ends
less than one accumulator step beyond the overlap center, so the
recomputed uniform axis size (7) is smaller than the `ind1+1` (8)
samples of accumulator data kept left of the seam. -/
theorem claim6_counterexample :
    join_spectra [ceA, ceB] 0 false InterpKind.slinear =
      Except.ok ⟨SigAxis.uniform 0 1 7, [List.replicate 8 (some 1)]⟩ ∧
    shapeOk ⟨SigAxis.uniform 0 1 7, [List.replicate 8 (some 1)]⟩ = false :=
  ⟨by decide, by decide⟩

/-- Claim C7: `axis2eV` fails with the unit error exactly when the axis
unit is `eV`; a `µm` axis is scaled by 1000 to nm before conversion and
gets intensity factor `1e3`; every other unit is treated as nm and gets
factor `1e6`. -/
theorem claim7_axis2eV (ax : WLAxis) :
    (axis2eV ax = Except.error ConvErr.unitErr ↔ ax.units = "eV") ∧
    (ax.units = "µm" →
      axis2eV ax = Except.ok ((ax.axis.map (fun v => nm2eV (1000 * v))).reverse, 1e3)) ∧
    (ax.units ≠ "eV" → ax.units ≠ "µm" →
      axis2eV ax = Except.ok ((ax.axis.map nm2eV).reverse, 1e6)) := by
  by_cases h : ax.units = "eV"
  · refine ⟨by simp [axis2eV, h], ?_, ?_⟩
    · intro hm
      rw [hm] at h
      exact absurd h (by decide)
    · intro hne _
      exact absurd h hne
  · by_cases h2 : ax.units = "µm"
    · exact ⟨by simp [axis2eV, h, h2], fun _ => by simp [axis2eV, h, h2],
        fun _ hn2 => absurd h2 hn2⟩
    · exact ⟨by simp [axis2eV, h, h2], fun hm => absurd hm h2,
        fun _ _ => by simp [axis2eV, h, h2]⟩

/-- Witness for claim C7: a µm axis, an nm axis, and an eV axis. -/
theorem claim7_witness :
    axis2eV ⟨[1 / 2, 3 / 5], "µm"⟩ =
      Except.ok ([nm2eV (1000 * (1 / 2)), nm2eV (1000 * (3 / 5))].reverse, 1e3) ∧
    axis2eV ⟨[500, 600], "nm"⟩ =
      Except.ok ([nm2eV 500, nm2eV 600].reverse, 1e6) ∧
    axis2eV ⟨[2, 3], "eV"⟩ = Except.error ConvErr.unitErr :=
  ⟨(claim7_axis2eV ⟨[1 / 2, 3 / 5], "µm"⟩).2.1 rfl,
   (claim7_axis2eV ⟨[500, 600], "nm"⟩).2.2 (by decide) (by decide),
   (claim7_axis2eV ⟨[2, 3], "eV"⟩).1.mpr rfl⟩

theorem zipWith3_getD {α β γ δ : Type} (f : α → β → γ → δ) (d1 : α) (d2 : β) (d3 : γ)
    (dd : δ) :
    ∀ (l1 : List α) (l2 : List β) (l3 : List γ) (i : ℕ),
      i < l1.length → i < l2.length → i < l3.length →
      (zipWith3 f l1 l2 l3).getD i dd = f (l1.getD i d1) (l2.getD i d2) (l3.getD i d3) := by
  intro l1
  induction l1 with
  | nil => intro l2 l3 i h1 _ _; exact absurd h1 (by simp)
  | cons x xs ih =>
    intro l2 l3 i h1 h2 h3
    cases l2 with
    | nil => exact absurd h2 (by simp)
    | cons y ys =>
      cases l3 with
      | nil => exact absurd h3 (by simp)
      | cons z zs =>
        cases i with
        | zero => simp [zipWith3]
        | succ n =>
          simp only [zipWith3, List.getD_cons_succ]
          exact ih ys zs n (by simpa using h1) (by simpa using h2) (by simpa using h3)

/-- Claim C9: `data2eV` multiplies sample `i` of the data pointwise by
`factor * h * c / (e * n_air(reversed wavelength axis) * energy_axis^2)`,
with the refractive index evaluated on the reversed wavelength axis so
that data, reversed wavelength axis, and energy axis align samplewise. -/
theorem claim9_data2eV (data : List ℚ) (factor : ℚ) (ax0 : List ℚ) (evaxis : List ℚ)
    (i : ℕ) (h1 : i < data.length) (h2 : i < ax0.length) (h3 : i < evaxis.length) :
    (data2eV data factor ax0 evaxis).getD i 0 =
      data.getD i 0 * factor * hplanck * clight /
        (echarge * n_air (ax0.reverse.getD i 0) * (evaxis.getD i 0) ^ 2) := by
  unfold data2eV
  exact zipWith3_getD _ 0 0 0 0 data ax0.reverse evaxis i h1 (by simpa using h2) h3

/-- Witness for claim C9: a one-sample instance. -/
theorem claim9_witness :
    (data2eV [2] 3 [500] [1]).getD 0 0 =
      ([2] : List ℚ).getD 0 0 * 3 * hplanck * clight /
        (echarge * n_air (([500] : List ℚ).reverse.getD 0 0) *
          ((([1] : List ℚ).getD 0 0) ^ 2)) :=
  claim9_data2eV [2] 3 [500] [1] 0 (by decide) (by decide) (by decide)

/-! Length bookkeeping lemmas for the shape invariant. -/

theorem pyconv_le (n : ℕ) (i : ℤ) : pyconv n i ≤ n := by
  unfold pyconv
  split <;> split <;> omega

theorem pyconv_eq_toNat (n : ℕ) (i : ℤ) (h0 : 0 ≤ i) (h : i ≤ (n : ℤ)) :
    pyconv n i = i.toNat := by
  unfold pyconv
  split <;> split <;> omega

theorem pyslice_length {α : Type} (a b : ℤ) (l : List α) :
    (pyslice a b l).length = pyconv l.length b - pyconv l.length a := by
  unfold pyslice
  rw [List.length_drop, List.length_take]
  have := pyconv_le l.length b
  omega

theorem pyslice_length_of {α : Type} (a b : ℤ) (l : List α)
    (h0 : 0 ≤ a) (hab : a ≤ b) (hb : b ≤ (l.length : ℤ)) :
    ((pyslice a b l).length : ℤ) = b - a := by
  rw [pyslice_length, pyconv_eq_toNat _ _ (le_trans h0 hab) hb, pyconv_eq_toNat _ _ h0 (le_trans hab hb)]
  omega

theorem pysliceFrom_length_of {α : Type} (a : ℤ) (l : List α)
    (h0 : 0 ≤ a) (ha : a ≤ (l.length : ℤ)) :
    ((pysliceFrom a l).length : ℤ) = (l.length : ℤ) - a := by
  unfold pysliceFrom
  rw [pyslice_length_of a (l.length : ℤ) l h0 ha (le_refl _)]

theorem seqMap_length {α β : Type} (f : α → Option β) :
    ∀ (l : List α) (l' : List β), seqMap f l = some l' → l'.length = l.length := by
  intro l
  induction l with
  | nil => intro l' h; cases h; rfl
  | cons x xs ih =>
    intro l' h
    unfold seqMap at h
    cases hx : f x with
    | none => rw [hx] at h; cases h
    | some y =>
      rw [hx] at h
      cases hs : seqMap f xs with
      | none => rw [hs] at h; cases h
      | some ys =>
        rw [hs] at h
        cases h
        simp [ih ys hs]

theorem seqMap_mem {α β : Type} (f : α → Option β) :
    ∀ (l : List α) (l' : List β), seqMap f l = some l' →
      ∀ y ∈ l', ∃ x ∈ l, f x = some y := by
  intro l
  induction l with
  | nil => intro l' h y hy; cases h; cases hy
  | cons x xs ih =>
    intro l' h y hy
    unfold seqMap at h
    cases hx : f x with
    | none => rw [hx] at h; cases h
    | some z =>
      rw [hx] at h
      cases hs : seqMap f xs with
      | none => rw [hs] at h; cases h
      | some zs =>
        rw [hs] at h
        cases h
        rcases List.mem_cons.mp hy with hy | hy
        · exact ⟨x, by simp, by rw [hx, hy]⟩
        · obtain ⟨x', hx', hfx'⟩ := ih zs hs y hy
          exact ⟨x', by simp [hx'], hfx'⟩

theorem interpRows_ok (kind : InterpKind) (xs : List ℚ) (rows : List (List RVal))
    (ts : List ℚ) (out : List (List RVal))
    (h : interpRows kind xs rows ts = some out) :
    out.length = rows.length ∧ ∀ row ∈ out, row.length = ts.length := by
  unfold interpRows at h
  split at h
  · cases h
  · split at h
    · cases h
    · refine ⟨seqMap_length _ rows out h, ?_⟩
      intro row hrow
      obtain ⟨r₀, _, hfr⟩ := seqMap_mem _ rows out h row hrow
      exact seqMap_length _ ts row hfr

theorem mem_zipWith {α β γ : Type} (f : α → β → γ) :
    ∀ (A : List α) (B : List β), ∀ c ∈ List.zipWith f A B,
      ∃ a ∈ A, ∃ b ∈ B, c = f a b := by
  intro A
  induction A with
  | nil => intro B c hc; cases hc
  | cons a as ih =>
    intro B c hc
    cases B with
    | nil => cases hc
    | cons b bs =>
      rcases List.mem_cons.mp hc with hc | hc
      · exact ⟨a, by simp, b, by simp, hc⟩
      · obtain ⟨a', ha', b', hb', hc'⟩ := ih bs c hc
        exact ⟨a', by simp [ha'], b', by simp [hb'], hc'⟩

theorem mean2Rows_mem (A B : List (List RVal)) (M : List (List RVal))
    (h : mean2Rows A B = some M) :
    ∀ m ∈ M, ∃ a ∈ A, ∃ b ∈ B, m = List.zipWith mean2 a b := by
  unfold mean2Rows at h
  split at h
  · cases h
    intro m hm
    obtain ⟨p, hp, hmp⟩ := List.mem_map.mp hm
    exact ⟨p.1, (List.of_mem_zip hp).1, p.2, (List.of_mem_zip hp).2, hmp.symm⟩
  · cases h

theorem shapeOk_iff (S : Spectrum) :
    shapeOk S = true ↔ ∀ row ∈ S.data, row.length = S.axis.len := by
  simp [shapeOk, List.all_eq_true]

theorem len_uniform (o s : ℚ) (n : ℕ) : (SigAxis.uniform o s n).len = n := by
  show ((List.range n).map (fun i => o + s * (Nat.cast i : ℚ))).length = n
  rw [List.length_map, List.length_range]

theorem len_nonuniform (l : List ℚ) : (SigAxis.nonuniform l).len = l.length := rfl

theorem axisList_length (a : SigAxis) : a.axisList.length = a.len := rfl

/-- Claim C6 (amended): a successful fold step preserves
`data.shape[-1] == axis.length` in each of the four merge branches,
provided the seam slices are in range — for a uniform accumulator axis,
`ind1 + 1` (and, when averaging, `ind1 + r`, with `1 ≤ r ≤ ind1`) must
not exceed the recomputed axis size; for a non-uniform axis with
averaging the `2r`-windows must lie inside both data rows.  The
counterexample shows the invariant fails without this proviso. -/
theorem claim6_shape_invariant (r : ℤ) (avg : Bool) (kind : InterpKind) (S1 S2 T : Spectrum)
    (hok : joinStep r avg kind S1 S2 = Except.ok T)
    (hS1 : shapeOk S1 = true) (hS2 : shapeOk S2 = true)
    (hr : 0 ≤ r)
    (hU : S1.axis.is_uniform = true →
      ((ind1 S1 S2 : ℤ) + 1 ≤ (newSizeU S1 S2 : ℤ) ∧
       (ind1 S1 S2 : ℤ) + 1 ≤ (S1.axis.len : ℤ) ∧
       (avg = true → 1 ≤ r ∧ r ≤ (ind1 S1 S2 : ℤ) ∧
         (ind1 S1 S2 : ℤ) + r ≤ (S1.axis.len : ℤ) ∧
         (ind1 S1 S2 : ℤ) + r ≤ (newSizeU S1 S2 : ℤ))))
    (hN : S1.axis.is_uniform = false →
      ((ind1 S1 S2 : ℤ) ≤ (S1.axis.len : ℤ) ∧ (ind2 S1 S2 : ℤ) ≤ (S2.axis.len : ℤ) ∧
       (avg = true → r ≤ (ind1 S1 S2 : ℤ) ∧ r ≤ (ind2 S1 S2 : ℤ) ∧
         (ind1 S1 S2 : ℤ) + r ≤ (S1.axis.len : ℤ) ∧
         (ind2 S1 S2 : ℤ) + r ≤ (S2.axis.len : ℤ)))) :
    shapeOk T = true := by
  rw [shapeOk_iff] at hS1 hS2 ⊢
  unfold joinStep at hok
  by_cases hrt : rTooLarge S1 S2 r = true
  · rw [hrt] at hok
    simp at hok
  · rw [Bool.not_eq_true] at hrt
    rw [hrt] at hok
    simp only [Bool.false_eq_true, if_false] at hok
    cases hm : mergeStep r avg kind S1 S2 with
    | none => rw [hm] at hok; cases hok
    | some T' =>
      rw [hm] at hok
      have hT : T' = T := by injection hok
      subst hT
      unfold mergeStep at hm
      rw [Option.bind_eq_some] at hm
      obtain ⟨fac, _, hm⟩ := hm
      have hS2d : ∀ row ∈ scaleData fac S2.data, row.length = S2.axis.len := by
        intro row hrow
        obtain ⟨f₀, _, r₀, hr₀, hrw⟩ := mem_zipWith _ fac S2.data row hrow
        rw [hrw, List.length_map]
        exact hS2 r₀ hr₀
      cases hu : S1.axis.is_uniform with
      | true =>
        rw [hu] at hm
        obtain ⟨hn1, hn2, havg⟩ := hU hu
        cases avg with
        | false =>
          simp only [eq_self_iff_true, if_true, Bool.false_eq_true, if_false] at hm
          rw [Option.map_eq_some'] at hm
          obtain ⟨tail, htail, hm⟩ := hm
          obtain ⟨_, hrows_out⟩ := interpRows_ok _ _ _ _ _ htail
          rw [← hm]
          intro row hrow
          obtain ⟨a, ha, b, hb, hab⟩ := mem_zipWith _ _ _ row hrow
          obtain ⟨r₀, hr₀, ha'⟩ := List.mem_map.mp ha
          have hi1 : (0 : ℤ) ≤ (ind1 S1 S2 : ℤ) := by positivity
          have hla : (a.length : ℤ) = (ind1 S1 S2 : ℤ) + 1 := by
            rw [← ha']
            rw [pyslice_length_of 0 ((ind1 S1 S2 : ℤ) + 1) r₀ (le_refl 0) (by omega)
              (by rw [hS1 r₀ hr₀]; exact hn2)]
            omega
          have hlb : (b.length : ℤ) = (newSizeU S1 S2 : ℤ) - ((ind1 S1 S2 : ℤ) + 1) := by
            rw [hrows_out b hb]
            rw [pysliceFrom_length_of _ _ (by omega)
              (by rw [axisList_length, len_uniform]; exact hn1)]
            rw [axisList_length, len_uniform]
          rw [hab, List.length_append, len_uniform]
          omega
        | true =>
          simp only [eq_self_iff_true, if_true] at hm
          obtain ⟨h1r, hri1, hi1rn, hi1rs⟩ := havg rfl
          rw [Option.bind_eq_some] at hm
          obtain ⟨mids, hmids, hm⟩ := hm
          rw [Option.bind_eq_some] at hm
          obtain ⟨tail, htail, hm⟩ := hm
          rw [Option.map_eq_some'] at hm
          obtain ⟨mid, hmid, hm⟩ := hm
          obtain ⟨_, hrows_mids⟩ := interpRows_ok _ _ _ _ _ hmids
          obtain ⟨_, hrows_tail⟩ := interpRows_ok _ _ _ _ _ htail
          rw [← hm]
          intro row hrow
          obtain ⟨ab, hab', c, hc, habc⟩ := mem_zipWith _ _ _ row hrow
          obtain ⟨a, ha, b, hb, hab⟩ := mem_zipWith _ _ _ ab hab'
          obtain ⟨r₀, hr₀, ha'⟩ := List.mem_map.mp ha
          have hi1 : (0 : ℤ) ≤ (ind1 S1 S2 : ℤ) := by positivity
          have hla : (a.length : ℤ) = (ind1 S1 S2 : ℤ) - r + 1 := by
            rw [← ha']
            rw [pyslice_length_of 0 ((ind1 S1 S2 : ℤ) - r + 1) r₀ (le_refl 0) (by omega)
              (by rw [hS1 r₀ hr₀]; omega)]
            omega
          have hlb : (b.length : ℤ) = 2 * r - 1 := by
            obtain ⟨ma, hma, mb, hmb, hmeq⟩ := mean2Rows_mem _ _ _ hmid b hb
            obtain ⟨ra, hra, hmaeq⟩ := List.mem_map.mp hma
            have hlma : (ma.length : ℤ) = 2 * r - 1 := by
              rw [← hmaeq]
              rw [pyslice_length_of ((ind1 S1 S2 : ℤ) - r + 1) ((ind1 S1 S2 : ℤ) + r) ra
                (by omega) (by omega) (by rw [hS1 ra hra]; omega)]
              ring
            have hlmb : (mb.length : ℤ) = 2 * r - 1 := by
              rw [hrows_mids mb hmb]
              rw [pyslice_length_of ((ind1 S1 S2 : ℤ) - r + 1) ((ind1 S1 S2 : ℤ) + r) _
                (by omega) (by omega) (by rw [axisList_length, len_uniform]; omega)]
              ring
            rw [hmeq, List.length_zipWith]
            omega
          have hlc : (c.length : ℤ) = (newSizeU S1 S2 : ℤ) - ((ind1 S1 S2 : ℤ) + r) := by
            rw [hrows_tail c hc]
            rw [pysliceFrom_length_of _ _ (by omega)
              (by rw [axisList_length, len_uniform]; omega)]
            rw [axisList_length, len_uniform]
          rw [habc, hab, List.length_append, List.length_append, len_uniform]
          omega
      | false =>
        rw [hu] at hm
        obtain ⟨hi1n, hi2n, havg⟩ := hN hu
        have hi1 : (0 : ℤ) ≤ (ind1 S1 S2 : ℤ) := by positivity
        have hi2 : (0 : ℤ) ≤ (ind2 S1 S2 : ℤ) := by positivity
        cases avg with
        | false =>
          simp only [Bool.false_eq_true, if_false] at hm
          injection hm with hm
          rw [← hm]
          intro row hrow
          obtain ⟨a, ha, b, hb, hab⟩ := mem_zipWith _ _ _ row hrow
          obtain ⟨r₀, hr₀, ha'⟩ := List.mem_map.mp ha
          obtain ⟨r₂, hr₂, hb'⟩ := List.mem_map.mp hb
          have hla : (a.length : ℤ) = (ind1 S1 S2 : ℤ) := by
            rw [← ha']
            rw [pyslice_length_of 0 ((ind1 S1 S2 : ℤ)) r₀ (le_refl 0) hi1
              (by rw [hS1 r₀ hr₀]; exact hi1n)]
            omega
          have hlb : (b.length : ℤ) = (S2.axis.len : ℤ) - (ind2 S1 S2 : ℤ) := by
            rw [← hb']
            rw [pysliceFrom_length_of _ _ hi2 (by rw [hS2d r₂ hr₂]; exact hi2n)]
            rw [hS2d r₂ hr₂]
          have hs1l : ((pyslice 0 ((ind1 S1 S2 : ℕ) : ℤ) S1.axis.axisList).length : ℤ) =
              (ind1 S1 S2 : ℤ) := by
            rw [pyslice_length_of 0 _ _ (le_refl 0) hi1 (by rw [axisList_length]; exact hi1n)]
            omega
          have hs2l : ((pysliceFrom ((ind2 S1 S2 : ℕ) : ℤ) S2.axis.axisList).length : ℤ) =
              (S2.axis.len : ℤ) - (ind2 S1 S2 : ℤ) := by
            rw [pysliceFrom_length_of _ _ hi2 (by rw [axisList_length]; exact hi2n)]
            rw [axisList_length]
          rw [hab, List.length_append, len_nonuniform, List.length_append]
          omega
        | true =>
          simp only [Bool.false_eq_true, if_false, eq_self_iff_true, if_true] at hm
          obtain ⟨hri1, hri2, hi1rn, hi2rn⟩ := havg rfl
          rw [Option.map_eq_some'] at hm
          obtain ⟨mid, hmid, hm⟩ := hm
          rw [← hm]
          intro row hrow
          obtain ⟨ab, hab', c, hc, habc⟩ := mem_zipWith _ _ _ row hrow
          obtain ⟨a, ha, b, hb, hab⟩ := mem_zipWith _ _ _ ab hab'
          obtain ⟨r₀, hr₀, ha'⟩ := List.mem_map.mp ha
          obtain ⟨r₃, hr₃, hc'⟩ := List.mem_map.mp hc
          have hla : (a.length : ℤ) = (ind1 S1 S2 : ℤ) - r := by
            rw [← ha']
            rw [pyslice_length_of 0 ((ind1 S1 S2 : ℤ) - r) r₀ (le_refl 0) (by omega)
              (by rw [hS1 r₀ hr₀]; omega)]
            omega
          have hlb : (b.length : ℤ) = 2 * r := by
            obtain ⟨ma, hma, mb, hmb, hmeq⟩ := mean2Rows_mem _ _ _ hmid b hb
            obtain ⟨ra, hra, hmaeq⟩ := List.mem_map.mp hma
            obtain ⟨rb, hrb, hmbeq⟩ := List.mem_map.mp hmb
            have hlma : (ma.length : ℤ) = 2 * r := by
              rw [← hmaeq]
              rw [pyslice_length_of ((ind1 S1 S2 : ℤ) - r) ((ind1 S1 S2 : ℤ) + r) ra
                (by omega) (by omega) (by rw [hS1 ra hra]; omega)]
              ring
            have hlmb : (mb.length : ℤ) = 2 * r := by
              rw [← hmbeq]
              rw [pyslice_length_of ((ind2 S1 S2 : ℤ) - r) ((ind2 S1 S2 : ℤ) + r) rb
                (by omega) (by omega) (by rw [hS2d rb hrb]; omega)]
              ring
            rw [hmeq, List.length_zipWith]
            omega
          have hlc : (c.length : ℤ) = (S2.axis.len : ℤ) - ((ind2 S1 S2 : ℤ) + r) := by
            rw [← hc']
            rw [pysliceFrom_length_of _ _ (by omega) (by rw [hS2d r₃ hr₃]; omega)]
            rw [hS2d r₃ hr₃]
          have hs1l : ((pyslice 0 ((ind1 S1 S2 : ℕ) : ℤ) S1.axis.axisList).length : ℤ) =
              (ind1 S1 S2 : ℤ) := by
            rw [pyslice_length_of 0 _ _ (le_refl 0) hi1 (by rw [axisList_length]; exact hi1n)]
            omega
          have hs2l : ((pysliceFrom ((ind2 S1 S2 : ℕ) : ℤ) S2.axis.axisList).length : ℤ) =
              (S2.axis.len : ℤ) - (ind2 S1 S2 : ℤ) := by
            rw [pysliceFrom_length_of _ _ hi2 (by rw [axisList_length]; exact hi2n)]
            rw [axisList_length]
          rw [habc, hab, List.length_append, List.length_append, len_nonuniform,
            List.length_append]
          omega

unseal Rat.mul Rat.add Rat.inv Rat.sub Rat.ofScientific in
/-- Witness for claim C6: the amended shape invariant applied to the
concrete `r = 9` fold step joining the two uniform constant spectra. -/
theorem claim6_witness :
    shapeOk ⟨SigAxis.uniform 500 1 200, [List.replicate 200 (some 10)]⟩ = true :=
  claim6_shape_invariant 9 false InterpKind.slinear scnA scnB
    ⟨SigAxis.uniform 500 1 200, [List.replicate 200 (some 10)]⟩
    joinStep_scn (by decide) (by decide) (by decide)
    (fun _ => by
      rw [ind1_scn, newSizeU_scn]
      exact ⟨by decide, by decide, fun h => absurd h (by decide)⟩)
    (fun h => absurd h (by decide))

/-! Analytic facts about the Peck-Reeder refractive index and the
wavelength/energy conversions. -/

theorem n_air_eq (x : ℚ) (hx : x ≠ 0) :
    n_air x = 1 + 806051e-10 + 2480990e-8 * x ^ 2 / (132274e-3 * x ^ 2 - 1e6) +
      174557e-9 * x ^ 2 / (3932957e-5 * x ^ 2 - 1e6) := by
  have hx2 : x ^ 2 ≠ 0 := pow_ne_zero 2 hx
  show (1 : ℚ) + 806051e-10 + 2480990e-8 / (132274e-3 - 1 / (x / 1000) ^ 2) +
      174557e-9 / (3932957e-5 - 1 / (x / 1000) ^ 2) = _
  rw [show (1 : ℚ) / (x / 1000) ^ 2 = 1e6 / x ^ 2 from by
    rw [div_pow, one_div_div]; norm_num]
  rw [show (132274e-3 : ℚ) - 1e6 / x ^ 2 = (132274e-3 * x ^ 2 - 1e6) / x ^ 2 from by
    rw [eq_div_iff hx2, sub_mul, div_mul_cancel₀ _ hx2]]
  rw [show (3932957e-5 : ℚ) - 1e6 / x ^ 2 = (3932957e-5 * x ^ 2 - 1e6) / x ^ 2 from by
    rw [eq_div_iff hx2, sub_mul, div_mul_cancel₀ _ hx2]]
  rw [div_div_eq_mul_div, div_div_eq_mul_div]

theorem n_air_bounds (x : ℚ) (hlo : 184 ≤ x) (hhi : x ≤ 1701) :
    1000273e-6 ≤ n_air x ∧ n_air x ≤ 1000341e-6 := by
  have hx0 : (0 : ℚ) < x := by linarith
  have hx2lo : (33856 : ℚ) ≤ x ^ 2 := by nlinarith
  have hx2hi : x ^ 2 ≤ (2893401 : ℚ) := by nlinarith
  have hD1 : (0 : ℚ) < 132274e-3 * x ^ 2 - 1e6 := by nlinarith
  have hD2 : (0 : ℚ) < 3932957e-5 * x ^ 2 - 1e6 := by nlinarith
  rw [n_air_eq x (ne_of_gt hx0)]
  have hb_lo : (18805e-8 : ℚ) ≤ 2480990e-8 * x ^ 2 / (132274e-3 * x ^ 2 - 1e6) := by
    rw [le_div_iff₀ hD1]; nlinarith
  have hb_hi : 2480990e-8 * x ^ 2 / (132274e-3 * x ^ 2 - 1e6) ≤ (2415e-7 : ℚ) := by
    rw [div_le_iff₀ hD1]; nlinarith
  have hd_lo : (44e-7 : ℚ) ≤ 174557e-9 * x ^ 2 / (3932957e-5 * x ^ 2 - 1e6) := by
    rw [le_div_iff₀ hD2]; nlinarith
  have hd_hi : 174557e-9 * x ^ 2 / (3932957e-5 * x ^ 2 - 1e6) ≤ (179e-7 : ℚ) := by
    rw [div_le_iff₀ hD2]; nlinarith
  constructor <;> linarith

set_option maxHeartbeats 1000000 in
theorem nair_mul_lt (x y : ℚ) (hx : 185 ≤ x) (hxy : x < y) (hy : y ≤ 1700) :
    n_air x * x < n_air y * y := by
  have hx0 : (0 : ℚ) < x := by linarith
  have hy0 : (0 : ℚ) < y := by linarith
  have hx2 : (34225 : ℚ) ≤ x ^ 2 := by nlinarith
  have hy2pos : (0 : ℚ) < y ^ 2 := by positivity
  have hD1x : (0 : ℚ) < 132274e-3 * x ^ 2 - 1e6 := by nlinarith
  have hD1y : (0 : ℚ) < 132274e-3 * y ^ 2 - 1e6 := by nlinarith
  have hD2x : (346054 : ℚ) ≤ 3932957e-5 * x ^ 2 - 1e6 := by nlinarith
  have hD2y : 10 * y ^ 2 ≤ 3932957e-5 * y ^ 2 - 1e6 := by nlinarith
  have hD2x0 : (0 : ℚ) < 3932957e-5 * x ^ 2 - 1e6 := by linarith
  have hD2y0 : (0 : ℚ) < 3932957e-5 * y ^ 2 - 1e6 := by nlinarith
  rw [n_air_eq x (ne_of_gt hx0), n_air_eq y (ne_of_gt hy0)]
  rw [← sub_pos]
  have hne1x := ne_of_gt hD1x
  have hne1y := ne_of_gt hD1y
  have hne2x := ne_of_gt hD2x0
  have hne2y := ne_of_gt hD2y0
  have expand : (1 + 806051e-10 + 2480990e-8 * y ^ 2 / (132274e-3 * y ^ 2 - 1e6) +
        174557e-9 * y ^ 2 / (3932957e-5 * y ^ 2 - 1e6)) * y -
      (1 + 806051e-10 + 2480990e-8 * x ^ 2 / (132274e-3 * x ^ 2 - 1e6) +
        174557e-9 * x ^ 2 / (3932957e-5 * x ^ 2 - 1e6)) * x =
      (2480990e-8 * y ^ 2 / (132274e-3 * y ^ 2 - 1e6) * y -
        2480990e-8 * x ^ 2 / (132274e-3 * x ^ 2 - 1e6) * x) +
      ((1 + 806051e-10) * (y - x) +
        (174557e-9 * y ^ 2 / (3932957e-5 * y ^ 2 - 1e6) * y -
          174557e-9 * x ^ 2 / (3932957e-5 * x ^ 2 - 1e6) * x)) := by
    ring
  rw [expand]
  have k2 : 2480990e-8 * y ^ 2 / (132274e-3 * y ^ 2 - 1e6) * y -
        2480990e-8 * x ^ 2 / (132274e-3 * x ^ 2 - 1e6) * x =
      2480990e-8 * (y - x) *
          (132274e-3 * (x ^ 2 * y ^ 2) - 1e6 * (x ^ 2 + x * y + y ^ 2)) /
        ((132274e-3 * x ^ 2 - 1e6) * (132274e-3 * y ^ 2 - 1e6)) := by
    field_simp
    ring
  have k3 : (1 + 806051e-10 : ℚ) * (y - x) +
        (174557e-9 * y ^ 2 / (3932957e-5 * y ^ 2 - 1e6) * y -
          174557e-9 * x ^ 2 / (3932957e-5 * x ^ 2 - 1e6) * x) =
      (y - x) *
          ((1 + 806051e-10) *
              ((3932957e-5 * x ^ 2 - 1e6) * (3932957e-5 * y ^ 2 - 1e6)) +
            174557e-9 *
              (3932957e-5 * (x ^ 2 * y ^ 2) - 1e6 * (x ^ 2 + x * y + y ^ 2))) /
        ((3932957e-5 * x ^ 2 - 1e6) * (3932957e-5 * y ^ 2 - 1e6)) := by
    field_simp
    ring
  rw [k2, k3]
  have hxy2 : x * y ≤ y ^ 2 := by nlinarith
  have hx2y2 : x ^ 2 ≤ y ^ 2 := by nlinarith
  have hprod : (34225 : ℚ) * y ^ 2 ≤ x ^ 2 * y ^ 2 := by nlinarith
  have hM1 : (0 : ℚ) < 132274e-3 * (x ^ 2 * y ^ 2) - 1e6 * (x ^ 2 + x * y + y ^ 2) := by
    nlinarith
  have hDD : (346054 : ℚ) * (10 * y ^ 2) ≤
      (3932957e-5 * x ^ 2 - 1e6) * (3932957e-5 * y ^ 2 - 1e6) :=
    mul_le_mul hD2x hD2y (by positivity) (by linarith)
  have hM2 : -(3e6 * y ^ 2) ≤
      3932957e-5 * (x ^ 2 * y ^ 2) - 1e6 * (x ^ 2 + x * y + y ^ 2) := by
    nlinarith
  have hnum2 : (0 : ℚ) <
      (1 + 806051e-10) * ((3932957e-5 * x ^ 2 - 1e6) * (3932957e-5 * y ^ 2 - 1e6)) +
        174557e-9 * (3932957e-5 * (x ^ 2 * y ^ 2) - 1e6 * (x ^ 2 + x * y + y ^ 2)) := by
    nlinarith
  apply add_pos
  · exact div_pos (by nlinarith) (mul_pos hD1x hD1y)
  · exact div_pos (mul_pos (by linarith) hnum2) (mul_pos hD2x0 hD2y0)

theorem nm2eV_lt_of_lt (x y : ℚ) (h185 : 185 ≤ x) (hxy : x < y) (h1700 : y ≤ 1700) :
    nm2eV y < nm2eV x := by
  have hx0 : (0 : ℚ) < x := by linarith
  have hy0 : (0 : ℚ) < y := by linarith
  have hnx := (n_air_bounds x (by linarith) (by linarith)).1
  have hny := (n_air_bounds y (by linarith) (by linarith)).1
  have hpx : (0 : ℚ) < n_air x * x := mul_pos (by linarith) hx0
  have hlt : n_air x * x < n_air y * y := nair_mul_lt x y h185 hxy h1700
  have hK : (0 : ℚ) < 1e9 * hplanck * clight := by norm_num [hplanck, clight]
  have hech : (0 : ℚ) < echarge := by norm_num [echarge]
  unfold nm2eV
  apply div_lt_div_of_pos_left hK
  · rw [mul_assoc]; exact mul_pos hech hpx
  · rw [mul_assoc, mul_assoc]; exact mul_lt_mul_of_pos_left hlt hech

theorem chain_nm2eV : ∀ l : List ℚ, (∀ v ∈ l, 185 ≤ v ∧ v ≤ 1700) →
    List.Chain' (· < ·) l → List.Chain' (fun a b => nm2eV b < nm2eV a) l := by
  intro l
  induction l with
  | nil => intro _ _; exact List.chain'_nil
  | cons a t ih =>
    intro hmem h
    cases t with
    | nil => simp
    | cons b t' =>
      rw [List.chain'_cons] at h ⊢
      refine ⟨nm2eV_lt_of_lt a b (hmem a (by simp)).1 h.1 (hmem b (by simp)).2, ?_⟩
      exact ih (fun v hv => hmem v (List.mem_cons_of_mem a hv)) h.2

/-- Claim C8: `nm2eV` is strictly decreasing on the valid wavelength
range 185-1700 nm, and `axis2eV` applied to a strictly ascending
wavelength axis (nm units) inside that range returns the sample-wise
conversion in reversed order: a strictly ascending energy axis of the
same length. -/
theorem claim8_monotone :
    (∀ x y : ℚ, 185 ≤ x → x < y → y ≤ 1700 → nm2eV y < nm2eV x) ∧
    ∀ ax0 : WLAxis, ax0.units ≠ "eV" → ax0.units ≠ "µm" →
      (∀ v ∈ ax0.axis, 185 ≤ v ∧ v ≤ 1700) → List.Chain' (· < ·) ax0.axis →
      axis2eV ax0 = Except.ok ((ax0.axis.map nm2eV).reverse, 1e6) ∧
      ((ax0.axis.map nm2eV).reverse).length = ax0.axis.length ∧
      List.Chain' (· < ·) ((ax0.axis.map nm2eV).reverse) := by
  constructor
  · exact fun x y h1 h2 h3 => nm2eV_lt_of_lt x y h1 h2 h3
  · intro ax0 hev hum hmem hch
    refine ⟨?_, by rw [List.length_reverse, List.length_map], ?_⟩
    · unfold axis2eV
      rw [if_neg hev, if_neg hum]
    · rw [List.chain'_reverse, List.chain'_map]
      exact chain_nm2eV ax0.axis hmem hch

/-- Witness for claim C8: the two conjuncts applied to the pair
500 nm < 600 nm and to the two-sample nm axis `[500, 600]`. -/
theorem claim8_witness :
    nm2eV 600 < nm2eV 500 ∧
    (axis2eV ⟨[500, 600], "nm"⟩ =
        Except.ok ((([500, 600] : List ℚ).map nm2eV).reverse, 1e6) ∧
      ((([500, 600] : List ℚ).map nm2eV).reverse).length = ([500, 600] : List ℚ).length ∧
      List.Chain' (· < ·) ((([500, 600] : List ℚ).map nm2eV).reverse)) :=
  ⟨claim8_monotone.1 500 600 (by norm_num) (by norm_num) (by norm_num),
   claim8_monotone.2 ⟨[500, 600], "nm"⟩ (by decide) (by decide)
     (by intro v hv; simp only [List.mem_cons, List.not_mem_nil, or_false] at hv
         rcases hv with rfl | rfl <;> norm_num)
     (by simp [List.chain'_cons]; norm_num)⟩

theorem roundtrip_close (x : ℚ) (h185 : 185 ≤ x) (h1700 : x ≤ 1700) :
    |eV2nm (nm2eV x) - x| < 1 / 2 := by
  have hx0 : (0 : ℚ) < x := by linarith
  have hnx := n_air_bounds x (by linarith) (by linarith)
  have hNpos : (0 : ℚ) < n_air x := by linarith [hnx.1]
  have hech : (0 : ℚ) < echarge := by norm_num [echarge]
  have hK : (0 : ℚ) < 1e9 * hplanck * clight := by norm_num [hplanck, clight]
  have hEpos : 0 < nm2eV x := by
    unfold nm2eV
    exact div_pos hK (by rw [mul_assoc]; exact mul_pos hech (mul_pos hNpos hx0))
  have hk_lo : (99972e-5 : ℚ) ≤ 1239.5 * echarge / (1e9 * hplanck * clight) := by
    rw [le_div_iff₀ hK]; norm_num [echarge, hplanck, clight]
  have hk_hi : 1239.5 * echarge / (1e9 * hplanck * clight) ≤ (99973e-5 : ℚ) := by
    rw [div_le_iff₀ hK]; norm_num [echarge, hplanck, clight]
  have hDx : echarge * n_air x * x ≠ 0 :=
    ne_of_gt (by rw [mul_assoc]; exact mul_pos hech (mul_pos hNpos hx0))
  have hKne : (1e9 : ℚ) * hplanck * clight ≠ 0 := ne_of_gt hK
  have hwl : 1239.5 / nm2eV x =
      1239.5 * echarge / (1e9 * hplanck * clight) * (n_air x * x) := by
    unfold nm2eV
    rw [div_div_eq_mul_div, div_mul_eq_mul_div, mul_comm]
    rw [div_eq_div_iff hKne hKne]
    ring
  have hwl_lo : (184 : ℚ) ≤ 1239.5 / nm2eV x := by
    rw [hwl]
    have h1 : (99972e-5 : ℚ) * (1000273e-6 * 185) ≤
        1239.5 * echarge / (1e9 * hplanck * clight) * (n_air x * x) := by
      apply mul_le_mul hk_lo ?_ (by nlinarith [hnx.1]) (by linarith)
      nlinarith [hnx.1]
    nlinarith [h1]
  have hwl_hi : 1239.5 / nm2eV x ≤ (1701 : ℚ) := by
    rw [hwl]
    have h1 : 1239.5 * echarge / (1e9 * hplanck * clight) * (n_air x * x) ≤
        (99973e-5 : ℚ) * (1000341e-6 * 1700) := by
      apply mul_le_mul hk_hi ?_ (by nlinarith [hnx.1]) (by norm_num)
      nlinarith [hnx.2]
    nlinarith [h1]
  have hnw := n_air_bounds (1239.5 / nm2eV x) hwl_lo hwl_hi
  have hMpos : (0 : ℚ) < n_air (1239.5 / nm2eV x) := by linarith [hnw.1]
  have hrt : eV2nm (nm2eV x) = n_air x * x / n_air (1239.5 / nm2eV x) := by
    have hM := hMpos
    show 1e9 * hplanck * clight /
        (echarge * n_air (1239.5 / nm2eV x) * nm2eV x) = _
    generalize hg : n_air (1239.5 / nm2eV x) = M
    rw [hg] at hM
    have hMne : M ≠ 0 := ne_of_gt hM
    unfold nm2eV
    have hNx : n_air x * x ≠ 0 := ne_of_gt (mul_pos hNpos hx0)
    have hechne : echarge ≠ 0 := ne_of_gt hech
    field_simp
    ring
  rw [hrt, abs_sub_lt_iff]
  have hN_hi : n_air x ≤ 1000341e-6 := hnx.2
  have hN_lo : (1000273e-6 : ℚ) ≤ n_air x := hnx.1
  have hM_hi : n_air (1239.5 / nm2eV x) ≤ 1000341e-6 := hnw.2
  have hM_lo : (1000273e-6 : ℚ) ≤ n_air (1239.5 / nm2eV x) := hnw.1
  have k1 : (n_air x - n_air (1239.5 / nm2eV x)) * x ≤ 68e-6 * x :=
    mul_le_mul_of_nonneg_right (by linarith) (le_of_lt hx0)
  have k1' : (n_air (1239.5 / nm2eV x) - n_air x) * x ≤ 68e-6 * x :=
    mul_le_mul_of_nonneg_right (by linarith) (le_of_lt hx0)
  have k2 : (68e-6 : ℚ) * x ≤ 68e-6 * 1700 := by linarith
  constructor
  · rw [sub_lt_iff_lt_add, div_lt_iff₀ hMpos]
    linarith [k1, k2, hM_lo]
  · rw [sub_lt_comm, lt_div_iff₀ hMpos]
    linarith [k1', k2, hM_lo]

set_option maxHeartbeats 4000000 in
unseal Rat.mul Rat.add Rat.inv Rat.sub Rat.ofScientific in
theorem eV2nm_nm2eV_500 : eV2nm (nm2eV 500) ≠ 500 := by
  decide

/-- Claim C10: the energy-to-wavelength conversion is only an
approximate inverse of the wavelength-to-energy conversion: on the
valid range 185-1700 nm the round trip lands within 0.5 nm of the
input, and it is not exact (witnessed at 500 nm), because `eV2nm`
evaluates the refractive index at the approximate wavelength
`1239.5 / E` rather than inverting `nm2eV` exactly. -/
theorem claim10_roundtrip :
    (∀ x : ℚ, 185 ≤ x → x ≤ 1700 → |eV2nm (nm2eV x) - x| < 1 / 2) ∧
    eV2nm (nm2eV 500) ≠ 500 :=
  ⟨roundtrip_close, eV2nm_nm2eV_500⟩

/-- Witness for claim C10: the round-trip bound instantiated at 500 nm. -/
theorem claim10_witness : |eV2nm (nm2eV 500) - 500| < 1 / 2 :=
  claim10_roundtrip.1 500 (by norm_num) (by norm_num)
